import Mathlib

/-!
Shallow embedding of the client-side state logic of the HyperVerge hackathon
frontend (a Next.js learning-hub application).  The definitions below are
translated from the TypeScript source:

* `handleVote`, `handleDelete` and friends come from
  `src/app/school/[id]/posts/[postId]/page.tsx` (post detail page with
  optimistic vote reconciliation);
* `fetchSchool`, `handleMemberSelection`, `handleSelectAllMembers` come from
  the school admin view (`ClientSchoolAdminView`).

Machine integers of the source (JS numbers used as integer ids and vote
counts) are modelled as `Int`; TypeScript `null` / `undefined` as `Option`;
the network is modelled by passing each call's outcome in explicitly and
recording the requests that the handler issues.
-/

set_option linter.unnecessarySeqFocus false

namespace HyperVerge

/-- A vote direction, the TS union `"up" | "down"`. -/
inductive Vote where
  | up
  | down
deriving DecidableEq, Repr

/-- `Comment extends Votable` from the post page: id, votes, the caller's own
vote (`user_vote`, `null` when absent), plus content metadata. -/
structure Comment where
  id : Int
  votes : Int
  user_vote : Option Vote
  content : String
  created_at : String
  author : String
deriving DecidableEq, Repr

/-- `Post extends Votable` from the post page, with its ordered comment
list. -/
structure Post where
  id : Int
  votes : Int
  user_vote : Option Vote
  hub_id : Int
  title : String
  content : String
  post_type : String
  created_at : String
  author : String
  comments : List Comment
deriving DecidableEq, Repr

/-- The two closure-captured mutable locals of `handleVote`
(`let originalVote = null; let voteChange = 0;`), written by `updateItem`
and read later by the API call and the rollback. -/
structure Captured where
  originalVote : Option Vote
  voteChange : Int
deriving DecidableEq, Repr

/-- Initial values of the captured locals before the optimistic updater
runs: `originalVote = null`, `voteChange = 0`. -/
def Captured.init : Captured := ⟨none, 0⟩

/-- The `voteChange` computed by `updateItem` in `handleVote`:
un-vote when `originalVote === newVote`, switch when `originalVote` is
truthy, new vote otherwise. -/
def voteChangeOf (originalVote : Option Vote) (newVote : Vote) : Int :=
  if originalVote = some newVote then
    if newVote = Vote.up then -1 else 1
  else if originalVote.isSome then
    if newVote = Vote.up then 2 else -2
  else
    if newVote = Vote.up then 1 else -1

/-- The `newVoteState` computed by `updateItem`: `null` on an un-vote,
otherwise the requested vote. -/
def newVoteStateOf (originalVote : Option Vote) (newVote : Vote) : Option Vote :=
  if originalVote = some newVote then none else some newVote

/-- `updateItem` of `handleVote` restricted to the `Votable` fields it
changes: `{...item, votes: item.votes + voteChange, user_vote: newVoteState}`. -/
def updateItemFields (votes : Int) (user_vote : Option Vote) (newVote : Vote) :
    Int × Option Vote :=
  (votes + voteChangeOf user_vote newVote, newVoteStateOf user_vote newVote)

/-- `updateItem` applied to a comment (the `isComment` branch of the
optimistic updater). -/
def applyVoteToComment (c : Comment) (newVote : Vote) : Comment :=
  { c with
    votes := (updateItemFields c.votes c.user_vote newVote).1
    user_vote := (updateItemFields c.votes c.user_vote newVote).2 }

/-- The `Captured` value that a call of `updateItem` on an item with the
given `user_vote` leaves in the closure-captured locals. -/
def capturedOf (user_vote : Option Vote) (newVote : Vote) : Captured :=
  ⟨user_vote, voteChangeOf user_vote newVote⟩

/-- `prevPost.comments.map(c => c.id === itemId ? updateItem(c) : c)`, with
the mutable locals threaded explicitly: each call of `updateItem` overwrites
`originalVote`/`voteChange`, so the final captured value comes from the last
matching comment (and stays at `cap` when nothing matches). -/
def updateComments (itemId : Int) (newVote : Vote) (cap : Captured) :
    List Comment → List Comment × Captured
  | [] => ([], cap)
  | c :: cs =>
    if c.id = itemId then
      let rest := updateComments itemId newVote (capturedOf c.user_vote newVote) cs
      (applyVoteToComment c newVote :: rest.1, rest.2)
    else
      let rest := updateComments itemId newVote cap cs
      (c :: rest.1, rest.2)

/-- Step 1 of `handleVote` (the `setPost` optimistic updater): on the post
itself when `isComment` is false, otherwise an immutable replace of the
matching comments.  Returns the new post state together with the captured
locals.  A `null` previous post is returned unchanged and leaves the
captured locals at their initial values. -/
def handleVoteOptimistic (post : Option Post) (itemId : Int) (isComment : Bool)
    (newVote : Vote) : Option Post × Captured :=
  match post with
  | none => (none, Captured.init)
  | some p =>
    if isComment then
      let res := updateComments itemId newVote Captured.init p.comments
      (some { p with comments := res.1 }, res.2)
    else
      (some { p with
          votes := (updateItemFields p.votes p.user_vote newVote).1
          user_vote := (updateItemFields p.votes p.user_vote newVote).2 },
        capturedOf p.user_vote newVote)

/-- `revertItem` of the failure path:
`{...item, votes: item.votes - voteChange, user_vote: originalVote}`. -/
def revertItemComment (c : Comment) (cap : Captured) : Comment :=
  { c with votes := c.votes - cap.voteChange, user_vote := cap.originalVote }

/-- Step 3 of `handleVote` (the rollback `setPost` updater ran when the API
call fails). -/
def handleVoteRevert (post : Option Post) (itemId : Int) (isComment : Bool)
    (cap : Captured) : Option Post :=
  match post with
  | none => none
  | some p =>
    if isComment then
      some { p with
        comments := p.comments.map fun c =>
          if c.id = itemId then revertItemComment c cap else c }
    else
      some { p with votes := p.votes - cap.voteChange, user_vote := cap.originalVote }

/-- The JSON body of the vote submission POST to
`/hubs/posts/{itemId}/vote`, together with the item id of the endpoint. -/
structure VoteRequest where
  itemId : Int
  user_id : String
  vote_type : Option Vote
  is_comment : Bool
deriving DecidableEq, Repr

/-- Everything observable about one invocation of `handleVote`: the post
state it leaves behind, the vote submissions it issued, and which alerts it
raised. -/
structure VoteEffects where
  post : Option Post
  requests : List VoteRequest
  loginPrompt : Bool
  errorAlert : Bool
deriving DecidableEq, Repr

/-- One full invocation of `handleVote`, parameterised by the authenticated
user (`none` when logged out) and by whether the vote submission succeeded
(`ok = true` for a 2xx response; `ok = false` for a non-ok status or a
network error, both of which land in the same `catch`).  Logged out: alert
and return before any state change.  Otherwise: optimistic update, then the
POST with `vote_type = originalVote === newVote ? null : newVote`; on
failure an error alert and the rollback. -/
def handleVote (user : Option String) (post : Option Post) (itemId : Int)
    (isComment : Bool) (newVote : Vote) (ok : Bool) : VoteEffects :=
  match user with
  | none => ⟨post, [], true, false⟩
  | some uid =>
    let step1 := handleVoteOptimistic post itemId isComment newVote
    let finalVoteType := if step1.2.originalVote = some newVote then none else some newVote
    let req : VoteRequest := ⟨itemId, uid, finalVoteType, isComment⟩
    if ok then
      ⟨step1.1, [req], false, false⟩
    else
      ⟨handleVoteRevert step1.1 itemId isComment step1.2, [req], false, true⟩

/-! ### Post deletion (`handleDelete` on the post page) -/

/-- The observable outcome of one invocation of `handleDelete`: the
(possibly updated) post state, whether the view navigated back, whether the
failure alert was raised, and the ids for which a DELETE was issued. -/
structure DeleteEffects where
  post : Option Post
  navigatedBack : Bool
  errorAlert : Bool
  deleteRequests : List Int
deriving DecidableEq, Repr

/-- `handleDelete` from the post page.  `itemToDelete` is the
`{ id, isComment }` state (`none` aborts immediately).  `fetchOutcome` is
the DELETE call's fate: `none` when `fetch` rejects (network error, lands in
the `catch`), `some ok` when it resolves with a response whose `ok` flag is
`ok` — note the source never reads `response.ok` here, so a resolved
response is treated the same whatever its status: for a comment the comment
list is filtered by id, for the post the view navigates back. -/
def handleDelete (itemToDelete : Option (Int × Bool)) (post : Option Post)
    (fetchOutcome : Option Bool) : DeleteEffects :=
  match itemToDelete with
  | none => ⟨post, false, false, []⟩
  | some (iid, isComment) =>
    match fetchOutcome with
    | none => ⟨post, false, true, [iid]⟩
    | some _ =>
      if isComment then
        ⟨post.map fun p => { p with comments := p.comments.filter fun c => c.id ≠ iid },
          false, false, [iid]⟩
      else
        ⟨post, true, false, [iid]⟩

/-! ### School admin view (`ClientSchoolAdminView`) -/

/-- `TeamMember` as used by the admin view: numeric id, email, and a role
string (`"owner"` or `"admin"`). -/
structure TeamMember where
  id : Int
  email : String
  role : String
deriving DecidableEq, Repr

/-- One course entry of the composite `School` view model (the admin view
maps fetched courses to `{ id, name, moduleCount: 0, description: '' }`). -/
structure Course where
  id : Int
  name : String
  moduleCount : Int
  description : String
deriving DecidableEq, Repr

/-- One cohort entry of the composite `School` view model. -/
structure Cohort where
  id : Int
  name : String
deriving DecidableEq, Repr

/-- The composite `School` view model of the admin page. -/
structure School where
  id : Int
  name : String
  url : String
  courses : List Course
  cohorts : List Cohort
  members : List TeamMember
deriving DecidableEq, Repr

/-- The organization metadata returned by `GET /organizations/{id}`
(the fields the admin view reads: `id`, `name`, `slug`). -/
structure OrgData where
  id : Int
  name : String
  slug : String
deriving DecidableEq, Repr

/-- A raw cohort row from `GET /cohorts/?org_id={id}`. -/
structure CohortData where
  id : Int
  name : String
deriving DecidableEq, Repr

/-- A raw course row from `GET /courses/?org_id={id}`. -/
structure CourseData where
  id : Int
  name : String
deriving DecidableEq, Repr

/-- An HTTP response: its `ok` flag (status in the 2xx range) and parsed
JSON body. -/
structure Response (α : Type) where
  ok : Bool
  data : α
deriving DecidableEq, Repr

/-- The `transformedSchool` object built by `fetchSchool` once all four
responses parsed: courses get `moduleCount: 0` and an empty description,
cohorts keep id and name, members are taken as-is. -/
def transformSchool (appUrl : String) (schoolData : OrgData)
    (membersData : List TeamMember) (cohortsData : List CohortData)
    (coursesData : List CourseData) : School :=
  { id := schoolData.id
    name := schoolData.name
    url := appUrl ++ "/school/" ++ schoolData.slug
    courses := coursesData.map fun course => ⟨course.id, course.name, 0, ""⟩
    cohorts := cohortsData.map fun cohort => ⟨cohort.id, cohort.name⟩
    members := membersData }

/-- `fetchSchool` of the admin view.  The four fetches run under
`Promise.all`; each argument is `none` when that fetch rejected (which
rejects the whole `Promise.all`) and `some r` when it resolved with
response `r`.  Any rejection or any non-ok status throws, the `catch` only
logs, and `setSchool` is never reached — so the previous view-model value
`prev` survives.  Only when all four responses are ok is the transformed
school stored. -/
def fetchSchool (appUrl : String) (prev : Option School)
    (schoolResponse : Option (Response OrgData))
    (membersResponse : Option (Response (List TeamMember)))
    (cohortsResponse : Option (Response (List CohortData)))
    (coursesResponse : Option (Response (List CourseData))) : Option School :=
  match schoolResponse, membersResponse, cohortsResponse, coursesResponse with
  | some s, some m, some c, some co =>
    if s.ok then
      if m.ok then
        if c.ok then
          if co.ok then
            some (transformSchool appUrl s.data m.data c.data co.data)
          else prev
        else prev
      else prev
    else prev
  | _, _, _, _ => prev

/-- `isCurrentUser` of the admin view:
`session?.user?.id === member.id.toString()`.  The session is modelled by
the optional authenticated user id string. -/
def isCurrentUser (sessionUserId : Option String) (member : TeamMember) : Bool :=
  sessionUserId = some (toString member.id)

/-- The `selectableMembers` filter used by `handleSelectAllMembers` (and by
`areAllMembersSelected` / `hasSelectableMembers`):
`school?.members.filter(m => m.role !== 'owner' && !isCurrentUser(m)) || []`. -/
def selectableMembers (sessionUserId : Option String) (school : Option School) :
    List TeamMember :=
  match school with
  | none => []
  | some s => s.members.filter fun member =>
      member.role ≠ "owner" && !isCurrentUser sessionUserId member

/-- `handleSelectAllMembers`: checking the header checkbox selects exactly
the selectable members, unchecking clears the selection. -/
def handleSelectAllMembers (checked : Bool) (sessionUserId : Option String)
    (school : Option School) : List TeamMember :=
  if checked then selectableMembers sessionUserId school else []

/-- `handleMemberSelection`: a no-op on the current user, otherwise toggles
the member in the selection by id (`some`/`filter` on `m.id`). -/
def handleMemberSelection (sessionUserId : Option String)
    (selected : List TeamMember) (member : TeamMember) : List TeamMember :=
  if isCurrentUser sessionUserId member then selected
  else if selected.any fun m => m.id = member.id then
    selected.filter fun m => m.id ≠ member.id
  else
    selected ++ [member]

/-- The render guard of the per-member checkbox in the members table: the
checkbox (whose `onChange` is the only caller of `handleMemberSelection`)
is rendered only when `member.role !== 'owner' && !isCurrentUser(member)`. -/
def memberCheckboxShown (sessionUserId : Option String) (member : TeamMember) : Bool :=
  member.role ≠ "owner" && !isCurrentUser sessionUserId member

/-- A user-level selection operation on the members tab: toggling one
member's checkbox, or (un)checking the select-all checkbox. -/
inductive SelOp where
  | toggle (member : TeamMember)
  | selectAll (checked : Bool)
deriving DecidableEq, Repr

/-- One selection operation applied to the `selectedMembers` state.  An
individual toggle goes through `handleMemberSelection` only when that
member's checkbox is rendered at all (see `memberCheckboxShown`). -/
def selStep (sessionUserId : Option String) (school : Option School)
    (selected : List TeamMember) : SelOp → List TeamMember
  | SelOp.toggle member =>
    if memberCheckboxShown sessionUserId member then
      handleMemberSelection sessionUserId selected member
    else selected
  | SelOp.selectAll checked => handleSelectAllMembers checked sessionUserId school

/-- A sequence of selection operations run from the initial empty
`selectedMembers` state. -/
def selRun (sessionUserId : Option String) (school : Option School)
    (ops : List SelOp) : List TeamMember :=
  ops.foldl (selStep sessionUserId school) []

/-! ### Sample data used to instantiate the theorems -/

/-- A sample comment the authenticated user has upvoted. -/
def sampleComment1 : Comment := ⟨1, 5, some Vote.up, "first", "2025-01-01", "ann"⟩

/-- A sample comment the authenticated user has not voted on. -/
def sampleComment2 : Comment := ⟨2, 3, none, "second", "2025-01-02", "bob"⟩

/-- A sample post (downvoted by the user) holding the two sample
comments. -/
def samplePost : Post :=
  ⟨10, 7, some Vote.down, 99, "Title", "Body", "thread", "2025-01-01", "ann",
    [sampleComment1, sampleComment2]⟩

/-- Sample organization metadata. -/
def sampleOrg : OrgData := ⟨5, "Acme School", "acme"⟩

/-- Sample members list: an owner, the authenticated user (id 2), and two
removable admins. -/
def sampleOwner : TeamMember := ⟨1, "owner@acme.io", "owner"⟩

/-- The member row of the authenticated user in the sample list. -/
def sampleSelf : TeamMember := ⟨2, "selfuser@acme.io", "admin"⟩

/-- A removable admin member. -/
def sampleMemberA : TeamMember := ⟨3, "a@acme.io", "admin"⟩

/-- Another removable admin member. -/
def sampleMemberB : TeamMember := ⟨4, "b@acme.io", "admin"⟩

/-- A sample composite school view model with the four members above. -/
def sampleSchool : School :=
  ⟨5, "Acme School", "https://app/school/acme", [], [],
    [sampleOwner, sampleSelf, sampleMemberA, sampleMemberB]⟩

/-! ### Helper lemmas about the optimistic comment update -/

/-- When no comment matches the voted id, the optimistic map leaves the
list untouched and the captured locals keep their incoming value. -/
theorem updateComments_no_match (itemId : Int) (r : Vote) (cap : Captured)
    (cs : List Comment) (h : ∀ c ∈ cs, c.id ≠ itemId) :
    updateComments itemId r cap cs = (cs, cap) := by
  induction cs with
  | nil => rfl
  | cons c cs ih =>
    have hc : c.id ≠ itemId := h c (List.mem_cons_self c cs)
    have hcs : ∀ d ∈ cs, d.id ≠ itemId := fun d hd => h d (List.mem_cons_of_mem c hd)
    simp [updateComments, hc, ih hcs]

/-- A conditional map by id over a list with no matching id is the
identity. -/
theorem map_ite_no_match (itemId : Int) (f : Comment → Comment)
    (cs : List Comment) (h : ∀ c ∈ cs, c.id ≠ itemId) :
    (cs.map fun c => if c.id = itemId then f c else c) = cs := by
  induction cs with
  | nil => rfl
  | cons c cs ih =>
    have hc : c.id ≠ itemId := h c (List.mem_cons_self c cs)
    have hcs : ∀ d ∈ cs, d.id ≠ itemId := fun d hd => h d (List.mem_cons_of_mem c hd)
    simp [hc, ih hcs]

/-- `updateItem` does not change the item's id. -/
theorem applyVoteToComment_id (c : Comment) (r : Vote) :
    (applyVoteToComment c r).id = c.id := rfl

/-- The rollback applied with the captured locals of the matching
`updateItem` call restores the comment exactly. -/
theorem revertItemComment_applyVote (c : Comment) (r : Vote) :
    revertItemComment (applyVoteToComment c r) (capturedOf c.user_vote r) = c := by
  cases c
  simp [revertItemComment, applyVoteToComment, capturedOf, updateItemFields]

/-- Optimistic comment update when exactly one comment in the list carries
the voted id: that comment is replaced in place and the captured locals
record its pre-click `user_vote` and the computed `voteChange`. -/
theorem updateComments_single_match (itemId : Int) (r : Vote) (cap : Captured)
    (l1 : List Comment) (c : Comment) (l2 : List Comment)
    (hl1 : ∀ d ∈ l1, d.id ≠ itemId) (hcid : c.id = itemId)
    (hl2 : ∀ d ∈ l2, d.id ≠ itemId) :
    updateComments itemId r cap (l1 ++ c :: l2) =
      (l1 ++ applyVoteToComment c r :: l2, capturedOf c.user_vote r) := by
  induction l1 with
  | nil => simp [updateComments, hcid, updateComments_no_match itemId r _ l2 hl2]
  | cons d l1 ih =>
    have hd : d.id ≠ itemId := hl1 d (List.mem_cons_self d l1)
    have h1 : ∀ e ∈ l1, e.id ≠ itemId := fun e he => hl1 e (List.mem_cons_of_mem d he)
    simp [updateComments, hd, ih h1]

/-- A list whose count of matches is at most one either has no match or
splits as `l1 ++ c :: l2` around a unique matching element. -/
theorem no_match_or_single_split (p : Comment → Bool) (cs : List Comment)
    (h : cs.countP p ≤ 1) :
    (∀ c ∈ cs, p c = false) ∨
      ∃ l1 c l2, cs = l1 ++ c :: l2 ∧ p c = true ∧
        (∀ d ∈ l1, p d = false) ∧ (∀ d ∈ l2, p d = false) := by
  induction cs with
  | nil => exact Or.inl (by simp)
  | cons c cs ih =>
    by_cases hc : p c = true
    · right
      refine ⟨[], c, cs, rfl, hc, by simp, ?_⟩
      have hcount : cs.countP p = 0 := by
        have := List.countP_cons_of_pos p (l := cs) hc
        omega
      intro d hd
      have := List.countP_eq_zero.mp hcount d hd
      simpa using this
    · have hc' : p c = false := by simpa using hc
      have hcs : cs.countP p ≤ 1 := by
        have := List.countP_cons_of_neg p (a := c) (l := cs) (by simp [hc'])
        omega
      rcases ih hcs with hnone | ⟨l1, e, l2, rfl, he, h1, h2⟩
      · left
        intro d hd
        rcases List.mem_cons.mp hd with rfl | hd
        · exact hc'
        · exact hnone d hd
      · right
        refine ⟨c :: l1, e, l2, rfl, he, ?_, h2⟩
        intro d hd
        rcases List.mem_cons.mp hd with rfl | hd
        · exact hc'
        · exact h1 d hd

/-- Un-vote case of `updateItem` on the votable fields. -/
theorem updateItemFields_unvote (v : Int) (uv : Option Vote) (r : Vote)
    (h : uv = some r) :
    updateItemFields v uv r = (if r = Vote.up then v - 1 else v + 1, none) := by
  subst h
  cases r <;> simp [updateItemFields, voteChangeOf, newVoteStateOf] <;> omega

/-- Switch case of `updateItem` on the votable fields. -/
theorem updateItemFields_switch (v : Int) (uv : Option Vote) (r : Vote) (v0 : Vote)
    (h : uv = some v0) (hne : v0 ≠ r) :
    updateItemFields v uv r = (if r = Vote.up then v + 2 else v - 2, some r) := by
  subst h
  cases r <;> simp [updateItemFields, voteChangeOf, newVoteStateOf, hne] <;> omega

/-- New-vote case of `updateItem` on the votable fields. -/
theorem updateItemFields_new (v : Int) (uv : Option Vote) (r : Vote)
    (h : uv = none) :
    updateItemFields v uv r = (if r = Vote.up then v + 1 else v - 1, some r) := by
  subst h
  cases r <;> simp [updateItemFields, voteChangeOf, newVoteStateOf] <;> omega

/-- Reduction of the whole vote handler in the post branch: the post's
votable fields go through `updateItem`. -/
theorem handleVote_post_branch (uid : String) (post : Post) (itemId : Int)
    (r : Vote) (ok : Bool) :
    handleVote (some uid) (some post) itemId false r ok =
      ⟨if ok then
          some { post with
            votes := (updateItemFields post.votes post.user_vote r).1
            user_vote := (updateItemFields post.votes post.user_vote r).2 }
        else
          some { post with
            votes := post.votes + voteChangeOf post.user_vote r - voteChangeOf post.user_vote r
            user_vote := post.user_vote },
        [⟨itemId, uid, if post.user_vote = some r then none else some r, false⟩],
        false, ¬ok⟩ := by
  cases ok <;>
    simp [handleVote, handleVoteOptimistic, handleVoteRevert, capturedOf,
      newVoteStateOf, updateItemFields]

/-- Reduction of the optimistic step in the comment branch when exactly one
comment carries the voted id. -/
theorem handleVoteOptimistic_single_match (post : Post) (itemId : Int) (r : Vote)
    (l1 l2 : List Comment) (c : Comment)
    (hc : post.comments = l1 ++ c :: l2) (hcid : c.id = itemId)
    (hl1 : ∀ d ∈ l1, d.id ≠ itemId) (hl2 : ∀ d ∈ l2, d.id ≠ itemId) :
    handleVoteOptimistic (some post) itemId true r =
      (some { post with comments := l1 ++ applyVoteToComment c r :: l2 },
        capturedOf c.user_vote r) := by
  simp [handleVoteOptimistic, hc,
    updateComments_single_match itemId r Captured.init l1 c l2 hl1 hcid hl2]

/-- C4: with no authenticated user, the vote handler performs no state
mutation and issues no network call; the login prompt is the only
observable effect. -/
theorem handleVote_unauthenticated_guard (post : Option Post) (itemId : Int)
    (isComment : Bool) (r : Vote) (ok : Bool) :
    handleVote none post itemId isComment r ok =
      ⟨post, [], true, false⟩ := rfl

/-- C1: the optimistic vote transition policy.  For the post itself and for
the (unique) matching comment: tapping the already-selected arrow un-votes
(`votes` moves one step against the vote, `user_vote` cleared); tapping the
opposite arrow switches (`votes` moves two steps, `user_vote` becomes the
request); voting with no prior vote moves `votes` one step and records the
request. -/
theorem handleVote_vote_transition_policy (uid : String) (post : Post)
    (itemId : Int) (r : Vote) (l1 l2 : List Comment) (c : Comment)
    (hc : post.comments = l1 ++ c :: l2) (hcid : c.id = itemId)
    (hl1 : ∀ d ∈ l1, d.id ≠ itemId) (hl2 : ∀ d ∈ l2, d.id ≠ itemId) :
    ((post.user_vote = some r →
        (handleVote (some uid) (some post) itemId false r true).post =
          some { post with
            votes := if r = Vote.up then post.votes - 1 else post.votes + 1
            user_vote := none }) ∧
      (∀ v0, post.user_vote = some v0 → v0 ≠ r →
        (handleVote (some uid) (some post) itemId false r true).post =
          some { post with
            votes := if r = Vote.up then post.votes + 2 else post.votes - 2
            user_vote := some r }) ∧
      (post.user_vote = none →
        (handleVote (some uid) (some post) itemId false r true).post =
          some { post with
            votes := if r = Vote.up then post.votes + 1 else post.votes - 1
            user_vote := some r })) ∧
    ((c.user_vote = some r →
        (handleVote (some uid) (some post) itemId true r true).post =
          some { post with comments := l1 ++
            ({ c with
                votes := if r = Vote.up then c.votes - 1 else c.votes + 1
                user_vote := none } : Comment) :: l2 }) ∧
      (∀ v0, c.user_vote = some v0 → v0 ≠ r →
        (handleVote (some uid) (some post) itemId true r true).post =
          some { post with comments := l1 ++
            ({ c with
                votes := if r = Vote.up then c.votes + 2 else c.votes - 2
                user_vote := some r } : Comment) :: l2 }) ∧
      (c.user_vote = none →
        (handleVote (some uid) (some post) itemId true r true).post =
          some { post with comments := l1 ++
            ({ c with
                votes := if r = Vote.up then c.votes + 1 else c.votes - 1
                user_vote := some r } : Comment) :: l2 })) := by
  have hopt := handleVoteOptimistic_single_match post itemId r l1 l2 c hc hcid hl1 hl2
  refine ⟨⟨?_, ?_, ?_⟩, ?_, ?_, ?_⟩
  · intro h
    rw [handleVote_post_branch]
    simp [updateItemFields_unvote post.votes post.user_vote r h]
  · intro v0 h hne
    rw [handleVote_post_branch]
    simp [updateItemFields_switch post.votes post.user_vote r v0 h hne]
  · intro h
    rw [handleVote_post_branch]
    simp [updateItemFields_new post.votes post.user_vote r h]
  · intro h
    simp [handleVote, hopt, applyVoteToComment,
      updateItemFields_unvote c.votes c.user_vote r h]
  · intro v0 h hne
    simp [handleVote, hopt, applyVoteToComment,
      updateItemFields_switch c.votes c.user_vote r v0 h hne]
  · intro h
    simp [handleVote, hopt, applyVoteToComment,
      updateItemFields_new c.votes c.user_vote r h]

/-- Witness for C1 at concrete data: un-voting the downvoted sample post. -/
theorem handleVote_vote_transition_policy_witness :
    (handleVote (some "u7") (some samplePost) 2 false Vote.down true).post =
      some { samplePost with
        votes := if Vote.down = Vote.up then samplePost.votes - 1 else samplePost.votes + 1
        user_vote := none } :=
  (handleVote_vote_transition_policy "u7" samplePost 2 Vote.down
    [sampleComment1] [] sampleComment2 rfl rfl (by decide) (by decide)).1.1 rfl

/-- C2: if the vote submission fails, the rollback restores the pre-click
state exactly — applying the optimistic update and then the revert is the
identity on the whole view model (assuming the voted id matches at most one
comment, i.e. no duplicate in-flight target). -/
theorem handleVote_rollback_restores (uid : String) (post : Post) (itemId : Int)
    (isComment : Bool) (r : Vote)
    (h : isComment = true →
      (post.comments.countP fun c => decide (c.id = itemId)) ≤ 1) :
    (handleVote (some uid) (some post) itemId isComment r false).post = some post := by
  cases isComment with
  | false =>
    rw [handleVote_post_branch]
    simp
  | true =>
    rcases no_match_or_single_split _ post.comments (h rfl) with hnone | ⟨l1, c, l2, hsplit, hp, h1, h2⟩
    · have hno : ∀ c ∈ post.comments, c.id ≠ itemId := by
        intro c hcmem
        simpa using hnone c hcmem
      simp [handleVote, handleVoteOptimistic, handleVoteRevert,
        updateComments_no_match itemId r Captured.init post.comments hno,
        map_ite_no_match itemId _ post.comments hno]
    · have hcid : c.id = itemId := by simpa using hp
      have hl1 : ∀ d ∈ l1, d.id ≠ itemId := by
        intro d hd
        simpa using h1 d hd
      have hl2 : ∀ d ∈ l2, d.id ≠ itemId := by
        intro d hd
        simpa using h2 d hd
      have hmap : ((l1 ++ applyVoteToComment c r :: l2).map fun d =>
          if d.id = itemId then revertItemComment d (capturedOf c.user_vote r) else d) =
          l1 ++ c :: l2 := by
        rw [List.map_append, map_ite_no_match itemId _ l1 hl1]
        simp [applyVoteToComment_id, hcid, revertItemComment_applyVote,
          map_ite_no_match itemId _ l2 hl2]
      simp [handleVote,
        handleVoteOptimistic_single_match post itemId r l1 l2 c hsplit hcid hl1 hl2,
        handleVoteRevert, hmap, ← hsplit]

/-- Witness for C2: a failed switch vote on the first sample comment leaves
the sample post exactly as before. -/
theorem handleVote_rollback_restores_witness :
    (handleVote (some "u7") (some samplePost) 1 true Vote.down false).post =
      some samplePost :=
  handleVote_rollback_restores "u7" samplePost 1 true Vote.down (fun _ => by decide)

/-- C3: voting on a comment replaces only that comment, at the same index,
preserving length and order; the post's own fields and every other comment
are untouched. -/
theorem handleVote_comment_isolation (uid : String) (post : Post) (itemId : Int)
    (r : Vote) (l1 l2 : List Comment) (c : Comment)
    (hc : post.comments = l1 ++ c :: l2) (hcid : c.id = itemId)
    (hl1 : ∀ d ∈ l1, d.id ≠ itemId) (hl2 : ∀ d ∈ l2, d.id ≠ itemId) :
    (handleVote (some uid) (some post) itemId true r true).post =
      some { post with comments := l1 ++ applyVoteToComment c r :: l2 } ∧
    (l1 ++ applyVoteToComment c r :: l2).length = post.comments.length ∧
    (applyVoteToComment c r).id = c.id := by
  refine ⟨?_, ?_, rfl⟩
  · simp [handleVote, handleVoteOptimistic_single_match post itemId r l1 l2 c hc hcid hl1 hl2]
  · simp [hc]

/-- Witness for C3: voting on the second sample comment. -/
theorem handleVote_comment_isolation_witness :
    (handleVote (some "u7") (some samplePost) 2 true Vote.up true).post =
      some { samplePost with
        comments := [sampleComment1] ++ applyVoteToComment sampleComment2 Vote.up :: [] } ∧
    ([sampleComment1] ++ applyVoteToComment sampleComment2 Vote.up :: []).length =
      samplePost.comments.length ∧
    (applyVoteToComment sampleComment2 Vote.up).id = sampleComment2.id :=
  handleVote_comment_isolation "u7" samplePost 2 Vote.up
    [sampleComment1] [] sampleComment2 rfl rfl (by decide) (by decide)

/-- C5: every authenticated vote sends exactly one submission, carrying the
user id and the comment flag, with `vote_type` null exactly on an un-vote
(pre-click `user_vote` equal to the request) and the requested vote
otherwise — for the post branch and for the unique matching comment. -/
theorem handleVote_request_contract (uid : String) (post : Post) (itemId : Int)
    (r : Vote) (ok : Bool) (l1 l2 : List Comment) (c : Comment)
    (hc : post.comments = l1 ++ c :: l2) (hcid : c.id = itemId)
    (hl1 : ∀ d ∈ l1, d.id ≠ itemId) (hl2 : ∀ d ∈ l2, d.id ≠ itemId) :
    (handleVote (some uid) (some post) itemId false r ok).requests =
      [⟨itemId, uid, if post.user_vote = some r then none else some r, false⟩] ∧
    (handleVote (some uid) (some post) itemId true r ok).requests =
      [⟨itemId, uid, if c.user_vote = some r then none else some r, true⟩] := by
  constructor
  · rw [handleVote_post_branch]
  · cases ok <;>
      simp [handleVote,
        handleVoteOptimistic_single_match post itemId r l1 l2 c hc hcid hl1 hl2,
        capturedOf]

/-- Witness for C5 at concrete data. -/
theorem handleVote_request_contract_witness :
    (handleVote (some "u7") (some samplePost) 2 false Vote.up true).requests =
      [⟨2, "u7", if samplePost.user_vote = some Vote.up then none else some Vote.up, false⟩] ∧
    (handleVote (some "u7") (some samplePost) 2 true Vote.up true).requests =
      [⟨2, "u7", if sampleComment2.user_vote = some Vote.up then none else some Vote.up, true⟩] :=
  handleVote_request_contract "u7" samplePost 2 Vote.up true
    [sampleComment1] [] sampleComment2 rfl rfl (by decide) (by decide)

/-- C10: a comment vote whose id matches no comment leaves the whole view
model unchanged (optimistic update and rollback are both no-ops, since the
captured `voteChange` stays 0 and `originalVote` stays null), yet the
submission is still sent with `vote_type` equal to the requested vote. -/
theorem handleVote_unmatched_comment (uid : String) (post : Post) (itemId : Int)
    (r : Vote) (ok : Bool)
    (h : ∀ c ∈ post.comments, c.id ≠ itemId) :
    (handleVote (some uid) (some post) itemId true r ok).post = some post ∧
    (handleVote (some uid) (some post) itemId true r ok).requests =
      [⟨itemId, uid, some r, true⟩] := by
  have hopt : handleVoteOptimistic (some post) itemId true r =
      (some post, Captured.init) := by
    simp [handleVoteOptimistic,
      updateComments_no_match itemId r Captured.init post.comments h]
  cases ok <;>
    simp [handleVote, hopt, Captured.init, handleVoteRevert,
      map_ite_no_match itemId _ post.comments h]

/-- Witness for C10: voting on absent comment id 77 of the sample post. -/
theorem handleVote_unmatched_comment_witness :
    (handleVote (some "u7") (some samplePost) 77 true Vote.up false).post =
      some samplePost ∧
    (handleVote (some "u7") (some samplePost) 77 true Vote.up false).requests =
      [⟨77, "u7", some Vote.up, true⟩] :=
  handleVote_unmatched_comment "u7" samplePost 77 Vote.up false (by decide)

/-- C6: the admin aggregation is all-or-nothing.  If any of the four
fetches rejects (`none`) or resolves with a non-2xx status, the composite
view model keeps its previous value (never transitions to loaded, no
partial result); only when all four are ok does it become the transformed
school. -/
theorem fetchSchool_all_or_nothing (appUrl : String) (prev : Option School)
    (sR : Option (Response OrgData)) (mR : Option (Response (List TeamMember)))
    (cR : Option (Response (List CohortData)))
    (coR : Option (Response (List CourseData))) :
    ((sR = none ∨ mR = none ∨ cR = none ∨ coR = none) →
      fetchSchool appUrl prev sR mR cR coR = prev) ∧
    (∀ s m c co, sR = some s → mR = some m → cR = some c → coR = some co →
      (s.ok && m.ok && c.ok && co.ok) = false →
      fetchSchool appUrl prev sR mR cR coR = prev) ∧
    (∀ s m c co, sR = some s → mR = some m → cR = some c → coR = some co →
      s.ok = true → m.ok = true → c.ok = true → co.ok = true →
      fetchSchool appUrl prev sR mR cR coR =
        some (transformSchool appUrl s.data m.data c.data co.data)) := by
  refine ⟨?_, ?_, ?_⟩
  · rintro (rfl | rfl | rfl | rfl)
    · cases mR <;> cases cR <;> cases coR <;> rfl
    · cases sR <;> cases cR <;> cases coR <;> rfl
    · cases sR <;> cases mR <;> cases coR <;> rfl
    · cases sR <;> cases mR <;> cases cR <;> rfl
  · intro s m c co hs hm hc hco hok
    subst hs hm hc hco
    simp only [fetchSchool]
    split_ifs with h1 h2 h3 h4 <;> simp_all
  · intro s m c co hs hm hc hco h1 h2 h3 h4
    subst hs hm hc hco
    simp [fetchSchool, h1, h2, h3, h4]

/-- Witness for C6: three ok responses plus one failed members fetch leave
the view model unloaded. -/
theorem fetchSchool_all_or_nothing_witness :
    fetchSchool "https://app" none (some ⟨true, sampleOrg⟩) (some ⟨false, []⟩)
      (some ⟨true, []⟩) (some ⟨true, []⟩) = none :=
  (fetchSchool_all_or_nothing "https://app" none (some ⟨true, sampleOrg⟩)
      (some ⟨false, []⟩) (some ⟨true, []⟩) (some ⟨true, []⟩)).2.1
    ⟨true, sampleOrg⟩ ⟨false, []⟩ ⟨true, []⟩ ⟨true, []⟩ rfl rfl rfl rfl rfl

/-- C7: the select-all checkbox selects exactly the members that are
neither the owner nor the authenticated user, and unchecking it clears the
selection. -/
theorem handleSelectAll_selects_exactly (sess : Option String) (s : School)
    (other : Option School) :
    (∀ m, m ∈ handleSelectAllMembers true sess (some s) ↔
      m ∈ s.members ∧ m.role ≠ "owner" ∧ isCurrentUser sess m = false) ∧
    handleSelectAllMembers false sess other = [] := by
  constructor
  · intro m
    simp [handleSelectAllMembers, selectableMembers, List.mem_filter, and_assoc]
  · rfl

/-- Witness for C7: in the sample school, viewed by user id 2, member A is
selected by select-all. -/
theorem handleSelectAll_selects_exactly_witness :
    sampleMemberA ∈ handleSelectAllMembers true (some "2") (some sampleSchool) :=
  ((handleSelectAll_selects_exactly (some "2") sampleSchool none).1
      sampleMemberA).mpr (by decide)

/-- One step of the selection state machine preserves the exclusion of the
owner and of the authenticated user. -/
theorem selStep_preserves (sess : Option String) (school : Option School)
    (sel : List TeamMember) (op : SelOp)
    (h : ∀ x ∈ sel, x.role ≠ "owner" ∧ isCurrentUser sess x = false) :
    ∀ x ∈ selStep sess school sel op,
      x.role ≠ "owner" ∧ isCurrentUser sess x = false := by
  intro x hx
  cases op with
  | selectAll checked =>
    cases checked with
    | false => simp [selStep, handleSelectAllMembers] at hx
    | true =>
      cases school with
      | none => simp [selStep, handleSelectAllMembers, selectableMembers] at hx
      | some s =>
        simp [selStep, handleSelectAllMembers, selectableMembers,
          List.mem_filter] at hx
        exact ⟨hx.2.1, hx.2.2⟩
  | toggle member =>
    by_cases hs : memberCheckboxShown sess member = true
    · have hmem : member.role ≠ "owner" ∧ isCurrentUser sess member = false := by
        simpa [memberCheckboxShown] using hs
      simp only [selStep] at hx
      rw [if_pos hs] at hx
      unfold handleMemberSelection at hx
      rw [if_neg (by simp [hmem.2])] at hx
      by_cases hany : (sel.any fun m => m.id = member.id) = true
      · rw [if_pos hany] at hx
        exact h x (List.mem_of_mem_filter hx)
      · rw [if_neg hany] at hx
        rcases List.mem_append.mp hx with hx | hx
        · exact h x hx
        · have hxm : x = member := by simpa using hx
          exact hxm ▸ hmem
    · simp only [selStep] at hx
      rw [if_neg hs] at hx
      exact h x hx

/-- Running any sequence of selection operations from a state satisfying
the exclusion invariant keeps it. -/
theorem selRun_preserves (sess : Option String) (school : Option School)
    (ops : List SelOp) :
    ∀ sel, (∀ x ∈ sel, x.role ≠ "owner" ∧ isCurrentUser sess x = false) →
      ∀ x ∈ ops.foldl (selStep sess school) sel,
        x.role ≠ "owner" ∧ isCurrentUser sess x = false := by
  induction ops with
  | nil =>
    intro sel h
    simpa using h
  | cons op ops ih =>
    intro sel h
    simpa [List.foldl_cons] using ih _ (selStep_preserves sess school sel op h)

/-- C8: under every sequence of selection operations (individual toggles,
select all, deselect all), no owner and no member equal to the
authenticated user ever appears in the selected-members set. -/
theorem selectedMembers_never_owner_nor_self (sess : Option String)
    (school : Option School) (ops : List SelOp) (m : TeamMember)
    (h : m ∈ selRun sess school ops) :
    m.role ≠ "owner" ∧ isCurrentUser sess m = false :=
  selRun_preserves sess school ops [] (by simp) m h

/-- Witness for C8: toggling member A puts it (and nothing excluded) into
the selection. -/
theorem selectedMembers_never_owner_nor_self_witness :
    sampleMemberA ∈ selRun (some "2") (some sampleSchool)
      [SelOp.toggle sampleMemberA] ∧
    (sampleMemberA.role ≠ "owner" ∧ isCurrentUser (some "2") sampleMemberA = false) :=
  ⟨by decide,
    selectedMembers_never_owner_nor_self (some "2") (some sampleSchool)
      [SelOp.toggle sampleMemberA] sampleMemberA (by decide)⟩

/-- C9 (code evaluated at the failing input): when the DELETE for comment 2
resolves with a non-success status (`response.ok = false`), `handleDelete`
still removes the comment from the list and raises no error notice, because
the source never inspects `response.ok` on this path. -/
theorem handleDelete_removes_comment_despite_error_status :
    handleDelete (some (2, true)) (some samplePost) (some false) =
      ⟨some { samplePost with comments := [sampleComment1] }, false, false, [2]⟩ := by
  rfl

end HyperVerge
